import Mathlib

/-!
Verification development for the read-through cache layer of the
`@mherod/iterableapi` client library.

The embedding covers:
* `JsValue` — the fragment of JavaScript values the cached lookups touch;
* `TypeAssertions.ts` — `goodString` / `badString` / `goodEmail` / `badEmail`;
* `MyLRUCache.ts` — the wrapper class around `lru-cache` v7 together with a
  model of the v7 semantics of `has` / `get` / `set` (recency list, capacity
  eviction, lazy ttl staleness);
* `IterableAPIService.ts` — the two module-level cache instances
  (`caches.userByEmail`, `caches.userByUserId`) and the cached lookup
  operations `fetchUserByEmail`, `fetchUserByUserId`, `fetchUserIdByEmail`.

The network round trip is abstracted as a `RemoteResult` parameter (what the
awaited `fetch` / `response.json()` pair produced); whether the lookup reached
the network at all is reported in the `networkCalled` field of the outcome.
-/

namespace IterableAPI

/-- The fragment of JavaScript runtime values reachable in the cached lookup
paths: `null`, `undefined`, strings, numbers, booleans and plain objects
(field list, insertion order). -/
inductive JsValue where
  | nullV
  | undefV
  | str (s : String)
  | num (n : Int)
  | boolV (b : Bool)
  | obj (fields : List (String × JsValue))

mutual

/-- Boolean equality on `JsValue`. -/
def JsValue.beq : JsValue → JsValue → Bool
  | .nullV, .nullV => true
  | .undefV, .undefV => true
  | .str a, .str b => a == b
  | .num a, .num b => a == b
  | .boolV a, .boolV b => a == b
  | .obj fs, .obj gs => JsValue.beqFields fs gs
  | _, _ => false

/-- Boolean equality on object field lists. -/
def JsValue.beqFields : List (String × JsValue) → List (String × JsValue) → Bool
  | [], [] => true
  | (k, v) :: t, (k2, v2) :: t2 =>
    k == k2 && JsValue.beq v v2 && JsValue.beqFields t t2
  | _, _ => false

end

mutual

theorem JsValue.eq_of_beq : ∀ {a b : JsValue}, JsValue.beq a b = true → a = b
  | .nullV, .nullV, _ => rfl
  | .undefV, .undefV, _ => rfl
  | .str _, .str _, h => by
    simpa [JsValue.beq] using congrArg JsValue.str (by simpa [JsValue.beq] using h)
  | .num _, .num _, h => by
    simpa [JsValue.beq] using congrArg JsValue.num (by simpa [JsValue.beq] using h)
  | .boolV _, .boolV _, h => by
    simpa [JsValue.beq] using congrArg JsValue.boolV (by simpa [JsValue.beq] using h)
  | .obj fs, .obj gs, h =>
    congrArg JsValue.obj (JsValue.eqFields_of_beqFields (by simpa [JsValue.beq] using h))

theorem JsValue.eqFields_of_beqFields :
    ∀ {fs gs : List (String × JsValue)}, JsValue.beqFields fs gs = true → fs = gs
  | [], [], _ => rfl
  | (k, v) :: t, (k2, v2) :: t2, h => by
    have h' : (k == k2 && JsValue.beq v v2 && JsValue.beqFields t t2) = true := by
      simpa [JsValue.beqFields] using h
    have hk : k = k2 := by
      have h2 := ((Bool.and_eq_true _ _).mp ((Bool.and_eq_true _ _).mp h').1).1
      simpa using h2
    have hv : v = v2 :=
      JsValue.eq_of_beq ((Bool.and_eq_true _ _).mp ((Bool.and_eq_true _ _).mp h').1).2
    have ht : t = t2 :=
      JsValue.eqFields_of_beqFields ((Bool.and_eq_true _ _).mp h').2
    simp [hk, hv, ht]

end

mutual

theorem JsValue.beq_refl : ∀ a : JsValue, JsValue.beq a a = true
  | .nullV => rfl
  | .undefV => rfl
  | .str _ => by simp [JsValue.beq]
  | .num _ => by simp [JsValue.beq]
  | .boolV _ => by simp [JsValue.beq]
  | .obj fs => by simpa [JsValue.beq] using JsValue.beqFields_refl fs

theorem JsValue.beqFields_refl : ∀ fs : List (String × JsValue), JsValue.beqFields fs fs = true
  | [] => rfl
  | (k, v) :: t => by
    simp [JsValue.beqFields, JsValue.beq_refl v, JsValue.beqFields_refl t]

end

instance : DecidableEq JsValue := fun a b =>
  if h : JsValue.beq a b = true then isTrue (JsValue.eq_of_beq h)
  else isFalse (fun he => h (he ▸ JsValue.beq_refl a))

/-- JavaScript `typeof`. Note `typeof null === "object"`. -/
def typeofJs : JsValue → String
  | .nullV => "object"
  | .undefV => "undefined"
  | .str _ => "string"
  | .num _ => "number"
  | .boolV _ => "boolean"
  | .obj _ => "object"

/-- Property access `v.name`. Returns `none` when the access THROWS a
TypeError (reading a property of `null` or `undefined`); on other non-object
values property access yields `undefined`. -/
def getFieldOpt (v : JsValue) (name : String) : Option JsValue :=
  match v with
  | .nullV => none
  | .undefV => none
  | .obj fs =>
    match fs.find? (fun p => p.1 == name) with
    | some p => some p.2
    | none => some .undefV
  | _ => some .undefV

/-- lodash `merge({}, src)` for the sources reachable in
`IterableAPIService` (the call is guarded by `typeof src === "object"`, so
`src` is `null` or an object there): merging `null` into `{}` is a no-op,
merging a plain object copies its fields. -/
def mergedEmpty : JsValue → JsValue
  | .obj fs => .obj fs
  | _ => .obj []

/-- Embeds `TypeAssertions.goodString`:
`input && typeof input === "string" && input.length > 0`. -/
def goodString : JsValue → Bool
  | .str s => !s.isEmpty
  | _ => false

/-- Embeds `TypeAssertions.badString`. -/
def badString (v : JsValue) : Bool := !goodString v

/-- Embeds `TypeAssertions.goodEmail` — `goodString(input) && input.match(emailRegExp)
!= null`. The regular expression lives in `RegExps.ts`, which is not among the
provided sources; the match against it is abstracted as the parameter
`emailMatch`. -/
def goodEmail (emailMatch : String → Bool) (v : JsValue) : Bool :=
  match v with
  | .str s => goodString (.str s) && emailMatch s
  | _ => false

/-- Embeds `TypeAssertions.badEmail`. -/
def badEmail (emailMatch : String → Bool) (v : JsValue) : Bool :=
  !goodEmail emailMatch v

/-- Model of an `lru-cache` v7 instance with string keys: `entries` is kept
most-recently-used first, each entry carrying its key, value and ttl start
time (ms). Per the v7 convention an unset ttl is stored as `0`, meaning no
expiration. -/
structure LRU (V : Type) where
  max : Nat
  ttl : Nat
  entries : List (String × V × Nat)
deriving DecidableEq

namespace LRU

variable {V : Type}

/-- v7 `isStale`: an entry is stale iff a ttl is configured and
`now - start > ttl`. -/
def isStale (c : LRU V) (now start : Nat) : Bool :=
  (c.ttl != 0) && decide (c.ttl < now - start)

/-- The entry currently stored for `k`, if any. -/
def findEntry (c : LRU V) (k : String) : Option (String × V × Nat) :=
  c.entries.find? (fun e => e.1 == k)

/-- v7 `has(k)`: true iff an entry exists and is not stale. Does not touch
recency and does not delete stale entries. -/
def has (c : LRU V) (now : Nat) (k : String) : Bool :=
  match c.findEntry k with
  | some e => !c.isStale now e.2.2
  | none => false

/-- v7 `get(k)`: a fresh hit returns the value and promotes the entry to
most-recently-used; a stale hit deletes the entry and returns `undefined`;
a miss returns `undefined`. -/
def get (c : LRU V) (now : Nat) (k : String) : Option V × LRU V :=
  match c.findEntry k with
  | none => (none, c)
  | some e =>
    if c.isStale now e.2.2 then
      (none, { c with entries := c.entries.filter (fun x => !(x.1 == k)) })
    else
      (some e.2.1,
       { c with entries := e :: c.entries.filter (fun x => !(x.1 == k)) })

/-- v7 `set(k, v)`: an existing key is updated and promoted; a new key is
inserted most-recently-used, evicting the least-recently-used entry when the
cache is at capacity. -/
def set (c : LRU V) (k : String) (v : V) (now : Nat) : LRU V :=
  match c.findEntry k with
  | some _ =>
    { c with entries := (k, v, now) :: c.entries.filter (fun x => !(x.1 == k)) }
  | none =>
    if 0 < c.max ∧ c.max ≤ c.entries.length then
      { c with entries := (k, v, now) :: c.entries.dropLast }
    else
      { c with entries := (k, v, now) :: c.entries }

/-- A sequence of `set` calls, oldest first. -/
def setMany (c : LRU V) (ops : List (String × V × Nat)) : LRU V :=
  ops.foldl (fun acc op => acc.set op.1 op.2.1 op.2.2) c

end LRU

/-- The options record accepted by `MyLRUCache`'s constructor
(`{ max?, maxAge?, ttl? }`). -/
structure CacheOpts where
  max : Option Nat
  maxAge : Option Nat
  ttl : Option Nat
deriving DecidableEq

/-- Embeds `MyLRUCache`'s constructor: it destructures ONLY `max` and `maxAge` from
the options (the `ttl` field of the options is never read) and hands
`{ max, maxAge, ttl: maxAge }` to `lru-cache` v7, which takes its ttl from the
`ttl` option alone (absent ⇒ `0`, i.e. no expiration). -/
def MyLRUCache.new (V : Type) (o : CacheOpts) : LRU V :=
  { max := o.max.getD 0, ttl := o.maxAge.getD 0, entries := [] }

/-- The options passed for both module-level caches in
`IterableAPIService.ts` lines 17–26: `{ max: 1000, ttl: 1000 * 60 * 5 }`. -/
def cacheOpts : CacheOpts :=
  { max := some 1000, maxAge := none, ttl := some (1000 * 60 * 5) }

/-- The pair of module-level cache instances. -/
structure Caches where
  userByUserId : LRU JsValue
  userByEmail : LRU JsValue
deriving DecidableEq

/-- Embeds the `caches` object as constructed at module load. -/
def initialCaches : Caches :=
  { userByUserId := MyLRUCache.new JsValue cacheOpts
    userByEmail := MyLRUCache.new JsValue cacheOpts }

/-- What the awaited network round trip produced: either the `fetch` promise
rejected (`throws`), or a response arrived with the given `content-type`
header (`none` when the header is absent) and a body that either parses as
JSON (`some json`) or makes `response.json()` reject (`none`). -/
inductive RemoteResult where
  | throws
  | response (contentType : Option String) (body : Option JsValue)
deriving DecidableEq

/-- Observable outcome of one cached lookup: the settled value of the promise
(`none` when the promise rejected, i.e. an exception escaped), the cache
state afterwards, and whether the network was consulted. -/
structure LookupOutcome where
  result : Option JsValue
  caches : Caches
  networkCalled : Bool
deriving DecidableEq

/-- The string a `JsValue` key contributes as a cache key (the guarded paths
only ever reach this with a string). -/
def jsKey : JsValue → String
  | .str s => s
  | _ => ""

/-- Embeds `IterableAPIService.fetchUserByEmail` (lines 79–115): validate, consult
the email cache, otherwise fetch; cache the merged record only when the
response is JSON and `typeof json.user === "object"`; swallow exceptions into
a `null` result. -/
def fetchUserByEmail (emailMatch : String → Bool) (st : Caches) (now : Nat)
    (email : JsValue) (remote : RemoteResult) : LookupOutcome :=
  if badEmail emailMatch email then
    ⟨some .nullV, st, false⟩
  else
    if st.userByEmail.has now (jsKey email) then
      ⟨some ((st.userByEmail.get now (jsKey email)).1.getD .undefV),
       { st with userByEmail := (st.userByEmail.get now (jsKey email)).2 }, false⟩
    else
      match remote with
      | .throws => ⟨some .nullV, st, true⟩
      | .response ct body =>
        if ct = some "application/json" then
          match body with
          | none => ⟨some .nullV, st, true⟩
          | some json =>
            match getFieldOpt json "user" with
            | none => ⟨some .nullV, st, true⟩
            | some u =>
              if typeofJs u = "object" then
                ⟨some (mergedEmpty u),
                 { st with userByEmail :=
                    st.userByEmail.set (jsKey email) (mergedEmpty u) now },
                 true⟩
              else
                ⟨some (.obj []), st, true⟩
        else
          ⟨some (.obj []), st, true⟩

/-- Embeds `IterableAPIService.fetchUserByUserId` (lines 122–158): same shape as
`fetchUserByEmail` with `badString` validation and the userId cache. -/
def fetchUserByUserId (st : Caches) (now : Nat)
    (userId : JsValue) (remote : RemoteResult) : LookupOutcome :=
  if badString userId then
    ⟨some .nullV, st, false⟩
  else
    if st.userByUserId.has now (jsKey userId) then
      ⟨some ((st.userByUserId.get now (jsKey userId)).1.getD .undefV),
       { st with userByUserId := (st.userByUserId.get now (jsKey userId)).2 }, false⟩
    else
      match remote with
      | .throws => ⟨some .nullV, st, true⟩
      | .response ct body =>
        if ct = some "application/json" then
          match body with
          | none => ⟨some .nullV, st, true⟩
          | some json =>
            match getFieldOpt json "user" with
            | none => ⟨some .nullV, st, true⟩
            | some u =>
              if typeofJs u = "object" then
                ⟨some (mergedEmpty u),
                 { st with userByUserId :=
                    st.userByUserId.set (jsKey userId) (mergedEmpty u) now },
                 true⟩
              else
                ⟨some (.obj []), st, true⟩
        else
          ⟨some (.obj []), st, true⟩

/-- Embeds `IterableAPIService.fetchUserIdByEmail` (lines 74–77):
`(await this.fetchUserByEmail(email)).userId` — the property read throws a
TypeError when the inner call resolved to `null`. -/
def fetchUserIdByEmail (emailMatch : String → Bool) (st : Caches) (now : Nat)
    (email : JsValue) (remote : RemoteResult) : LookupOutcome :=
  match fetchUserByEmail emailMatch st now email remote with
  | ⟨none, cs, nc⟩ => ⟨none, cs, nc⟩
  | ⟨some u, cs, nc⟩ =>
    match getFieldOpt u "userId" with
    | none => ⟨none, cs, nc⟩
    | some uid => ⟨some uid, cs, nc⟩

/-- Concrete email validator used in closed scenarios: accepts exactly
"a@b.com". -/
def emDemo : String → Bool := fun s => s == "a@b.com"

/-! ### Helper lemmas about the LRU model -/

namespace LRU

variable {V : Type}

theorem set_max (c : LRU V) (k : String) (v : V) (now : Nat) :
    (c.set k v now).max = c.max := by
  cases hf : c.findEntry k with
  | some e => simp only [LRU.set, hf]
  | none =>
    simp only [LRU.set, hf]
    split <;> rfl

theorem length_filter_lt_of_find? (p : (String × V × Nat) → Bool) :
    ∀ (l : List (String × V × Nat)) (a : String × V × Nat), l.find? p = some a →
      (l.filter (fun x => !(p x))).length < l.length
  | [], a, h => by simp at h
  | b :: t, a, h => by
    by_cases hb : p b = true
    · have hfil : (b :: t).filter (fun x => !(p x)) = t.filter (fun x => !(p x)) := by
        simp [List.filter_cons, hb]
      rw [hfil]
      exact Nat.lt_succ_of_le (List.length_filter_le _ t)
    · have hb2 : p b = false := by simpa using hb
      have hfind : t.find? p = some a := by
        rwa [List.find?_cons_of_neg] at h
        simp [hb2]
      have ih := length_filter_lt_of_find? p t a hfind
      have hfil : (b :: t).filter (fun x => !(p x)) = b :: t.filter (fun x => !(p x)) := by
        simp [List.filter_cons, hb2]
      rw [hfil]
      simpa using Nat.succ_lt_succ ih

theorem set_length_le (c : LRU V) (k : String) (v : V) (now : Nat)
    (hm : 0 < c.max) (h : c.entries.length ≤ c.max) :
    (c.set k v now).entries.length ≤ c.max := by
  cases hf : c.findEntry k with
  | some e =>
    simp only [LRU.set, hf]
    have hlt : (c.entries.filter (fun x => !(x.1 == k))).length < c.entries.length :=
      length_filter_lt_of_find? (fun x => x.1 == k) c.entries e hf
    simp only [List.length_cons]
    omega
  | none =>
    simp only [LRU.set, hf]
    split
    · next hcond =>
      simp only [List.length_cons, List.length_dropLast]
      omega
    · next hcond =>
      simp only [List.length_cons]
      rcases Decidable.not_and_iff_or_not.mp hcond with h1 | h2
      · exact absurd hm h1
      · omega

theorem setMany_length_le :
    ∀ (ops : List (String × V × Nat)) (c : LRU V), 0 < c.max →
      c.entries.length ≤ c.max → (c.setMany ops).entries.length ≤ c.max
  | [], c, _, h => h
  | op :: t, c, hm, h => by
    have hmax := set_max c op.1 op.2.1 op.2.2
    have hstep : (c.set op.1 op.2.1 op.2.2).entries.length ≤ (c.set op.1 op.2.1 op.2.2).max := by
      rw [hmax]
      exact set_length_le c op.1 op.2.1 op.2.2 hm h
    have ih := setMany_length_le t (c.set op.1 op.2.1 op.2.2) (by rwa [hmax]) hstep
    rw [hmax] at ih
    simpa [LRU.setMany] using ih

theorem set_entries_eq (c : LRU V) (k : String) (v : V) (now : Nat) :
    ∃ rest, (c.set k v now).entries = (k, v, now) :: rest
      ∧ ∀ e ∈ rest, (e.1 == k) = false := by
  cases hf : c.findEntry k with
  | some e =>
    refine ⟨c.entries.filter (fun x => !(x.1 == k)), by simp only [LRU.set, hf], ?_⟩
    intro x hx
    have := List.of_mem_filter hx
    simpa using this
  | none =>
    have hnone : ∀ x ∈ c.entries, (x.1 == k) = false := by
      intro x hx
      have := List.find?_eq_none.mp hf x hx
      simpa using this
    simp only [LRU.set, hf]
    split
    · exact ⟨c.entries.dropLast, rfl, fun e he => hnone e (List.mem_of_mem_dropLast he)⟩
    · exact ⟨c.entries, rfl, fun e he => hnone e he⟩

theorem has_set_self (c : LRU V) (k : String) (v : V) (now : Nat) :
    (c.set k v now).has now k = true := by
  obtain ⟨rest, hre, hfree⟩ := set_entries_eq c k v now
  have hfind : (c.set k v now).findEntry k = some (k, v, now) := by
    simp [LRU.findEntry, hre, List.find?_cons]
  simp [LRU.has, hfind, LRU.isStale]

theorem find?_filter_ne (k k2 : String) (h : k2 ≠ k) :
    ∀ l : List (String × V × Nat),
      (l.filter (fun x => !(x.1 == k))).find? (fun x => x.1 == k2)
        = l.find? (fun x => x.1 == k2)
  | [] => rfl
  | a :: t => by
    by_cases ha2 : a.1 = k2
    · have hak : (a.1 == k) = false := by
        subst ha2
        simpa using h
      have ha2b : (a.1 == k2) = true := by simpa using ha2
      simp [List.filter_cons, hak, List.find?_cons, ha2b]
    · have ha2b : (a.1 == k2) = false := by simpa using ha2
      by_cases hak : a.1 = k
      · have hakb : (a.1 == k) = true := by simpa using hak
        simp [List.filter_cons, hakb, List.find?_cons, ha2b, find?_filter_ne k k2 h t]
      · have hakb : (a.1 == k) = false := by simpa using hak
        simp [List.filter_cons, hakb, List.find?_cons, ha2b, find?_filter_ne k k2 h t]

theorem get_findEntry_of_has (c : LRU V) (now : Nat) (k : String)
    (h : c.has now k = true) :
    ∀ k2, ((c.get now k).2).findEntry k2 = c.findEntry k2 := by
  intro k2
  cases hf : c.findEntry k with
  | none => simp [LRU.has, hf] at h
  | some e =>
    have hst : c.isStale now e.2.2 = false := by
      have h2 := h
      simp only [LRU.has, hf] at h2
      simpa using h2
    have hfind : c.entries.find? (fun x => x.1 == k) = some e := hf
    have hek : (e.1 == k) = true := by
      have h3 := List.find?_some hfind
      simpa using h3
    simp only [LRU.get, hf, hst, Bool.false_eq_true, if_false]
    by_cases hk : k2 = k
    · subst hk
      have h4 : (e.1 == k2) = true := hek
      simp [LRU.findEntry, List.find?_cons, h4, hfind]
    · have hek2 : (e.1 == k2) = false := by
        have : e.1 = k := by simpa using hek
        simp [this, Ne.symm hk]
      simp [LRU.findEntry, List.find?_cons, hek2, find?_filter_ne k k2 hk]

end LRU


theorem fetchUserByEmail_preserves_userId_cache (em : String → Bool) (st : Caches)
    (now : Nat) (key : JsValue) (remote : RemoteResult) :
    (fetchUserByEmail em st now key remote).caches.userByUserId = st.userByUserId := by
  unfold fetchUserByEmail
  repeat' split
  all_goals simp

theorem fetchUserByUserId_preserves_email_cache (st : Caches)
    (now : Nat) (key : JsValue) (remote : RemoteResult) :
    (fetchUserByUserId st now key remote).caches.userByEmail = st.userByEmail := by
  unfold fetchUserByUserId
  repeat' split
  all_goals simp

theorem fetchUserByEmail_result_ne_none (em : String → Bool) (st : Caches)
    (now : Nat) (key : JsValue) (remote : RemoteResult) :
    (fetchUserByEmail em st now key remote).result ≠ none := by
  unfold fetchUserByEmail
  repeat' split
  all_goals simp

theorem fetchUserByUserId_result_ne_none (st : Caches)
    (now : Nat) (key : JsValue) (remote : RemoteResult) :
    (fetchUserByUserId st now key remote).result ≠ none := by
  unfold fetchUserByUserId
  repeat' split
  all_goals simp

theorem fetchUserIdByEmail_caches_eq (em : String → Bool) (st : Caches)
    (now : Nat) (key : JsValue) (remote : RemoteResult) :
    (fetchUserIdByEmail em st now key remote).caches
      = (fetchUserByEmail em st now key remote).caches := by
  unfold fetchUserIdByEmail
  split
  · next cs nc heq => rw [heq]
  · next u cs nc heq =>
    split
    · rw [heq]
    · rw [heq]

theorem getFieldOpt_eq_none_iff (u : JsValue) (name : String) :
    getFieldOpt u name = none ↔ u = .nullV ∨ u = .undefV := by
  cases u <;> simp [getFieldOpt]
  case obj fs =>
    split <;> simp


/-! ### Demonstration fixtures for concrete scenarios -/

/-- A small user record, as the remote directory would return it. -/
def demoUser : JsValue := .obj [("userId", .str "u1")]

/-- A two-slot cache built through `MyLRUCache`'s constructor, then filled by
`set a 1; set b 2; get a; set c 3` — the C6 recency scenario. -/
def recencyCache : LRU JsValue :=
  (((((MyLRUCache.new JsValue
      { max := some 2, maxAge := none, ttl := some 1000000 }).set
        "a" (.num 1) 0).set "b" (.num 2) 1).get 2 "a").2).set "c" (.num 3) 3

/-- A cache at capacity (`max = 2`, entries `b` (recent) and `a` (LRU)). -/
def fullCache2 : LRU JsValue :=
  ((MyLRUCache.new JsValue { max := some 2, maxAge := none, ttl := none }).set
      "a" (.num 1) 0).set "b" (.num 2) 1

/-- The service caches after a successful `fetchUserByEmail` for
"a@b.com" whose JSON body carried an empty `user` object. -/
def cachesAfterEmptyFetch : Caches :=
  (fetchUserByEmail emDemo initialCaches 0 (.str "a@b.com")
    (.response (some "application/json") (some (.obj [("user", .obj [])])))).caches

/-- The service caches with the demo user cached under the email key space. -/
def demoCaches : Caches :=
  { initialCaches with
    userByEmail := initialCaches.userByEmail.set "a@b.com" demoUser 0 }

/-! ### Claim theorems -/

/-- C1 (code_bug evidence): the freshness claim fails on the code because
`MyLRUCache`'s constructor destructures `{ max, maxAge }` and passes
`ttl: maxAge` to `lru-cache`, silently discarding the `ttl: 1000 * 60 * 5`
the two call sites supply. The constructed caches therefore have ttl `0`
(no expiration): an entry set at T = 1 ms is still visible via `has`/`get`
at T + 5 min + 1 ms, where the claim (and the source's own "5 minutes"
comment) requires it to be treated as absent. -/
theorem C1_freshness_code_bug :
    (cacheOpts.ttl = some 300000)
    ∧ ((MyLRUCache.new JsValue cacheOpts).ttl = 0)
    ∧ (initialCaches.userByEmail = MyLRUCache.new JsValue cacheOpts)
    ∧ (initialCaches.userByUserId = MyLRUCache.new JsValue cacheOpts)
    ∧ (((MyLRUCache.new JsValue cacheOpts).set "a@b.com" demoUser 1).has
        300002 "a@b.com" = true)
    ∧ ((((MyLRUCache.new JsValue cacheOpts).set "a@b.com" demoUser 1).get
        300002 "a@b.com").1 = some demoUser) := by
  decide

/-- C2 (counterexample): a JSON response whose `user` field is an empty
object — an empty record — DOES populate the cache: afterwards `has` is true,
the stored value is exactly the empty placeholder object that was returned to
the caller, and a subsequent lookup for the same key short-circuits from the
cache without attempting a remote fetch. -/
theorem C2_counterexample_empty_record_cached :
    ((fetchUserByEmail emDemo initialCaches 0 (.str "a@b.com")
        (.response (some "application/json")
          (some (.obj [("user", .obj [])])))).result = some (.obj []))
    ∧ (cachesAfterEmptyFetch.userByEmail.has 0 "a@b.com" = true)
    ∧ ((cachesAfterEmptyFetch.userByEmail.get 0 "a@b.com").1 = some (.obj []))
    ∧ ((fetchUserByEmail emDemo cachesAfterEmptyFetch 0 (.str "a@b.com")
        .throws).networkCalled = false) := by
  decide

/-- C6: with `max = 2` and no effective expiry, `set(a,1); set(b,2); get(a);
set(c,3)` leaves exactly {a ↦ 1, c ↦ 3}: the `get` promoted `a`, so inserting
`c` evicted `b` — `has(b)` is false. -/
theorem C6_get_promotes_recency :
    (recencyCache.has 4 "a" = true)
    ∧ ((recencyCache.get 4 "a").1 = some (.num 1))
    ∧ (recencyCache.has 4 "c" = true)
    ∧ ((recencyCache.get 4 "c").1 = some (.num 3))
    ∧ (recencyCache.has 4 "b" = false)
    ∧ ((recencyCache.get 4 "b").1 = none)
    ∧ (recencyCache.entries.length = 2) := by
  decide

/-- C10: the absence sentinel is not uniform. For both lookups: an invalid
key and a thrown network error resolve to `null`; a response whose
content-type is not "application/json" and a JSON response whose `user` field
is not of object type resolve to a fresh empty object `{}`; a genuinely empty
user record also resolves to `{}`, so the empty object is indistinguishable
from those failures, and the two sentinel shapes differ, so no single null
check covers all failures. -/
theorem C10_sentinel_not_uniform :
    ((fetchUserByEmail emDemo initialCaches 0 (.num 3) .throws).result
      = some .nullV)
    ∧ ((fetchUserByEmail emDemo initialCaches 0 (.str "a@b.com") .throws).result
      = some .nullV)
    ∧ ((fetchUserByEmail emDemo initialCaches 0 (.str "a@b.com")
        (.response (some "text/html") (some (.obj [("user", demoUser)])))).result
      = some (.obj []))
    ∧ ((fetchUserByEmail emDemo initialCaches 0 (.str "a@b.com")
        (.response (some "application/json")
          (some (.obj [("user", .str "x")])))).result = some (.obj []))
    ∧ ((fetchUserByEmail emDemo initialCaches 0 (.str "a@b.com")
        (.response (some "application/json")
          (some (.obj [("user", .obj [])])))).result = some (.obj []))
    ∧ ((fetchUserByUserId initialCaches 0 (.num 3) .throws).result
      = some .nullV)
    ∧ ((fetchUserByUserId initialCaches 0 (.str "u1") .throws).result
      = some .nullV)
    ∧ ((fetchUserByUserId initialCaches 0 (.str "u1")
        (.response (some "text/html") none)).result = some (.obj []))
    ∧ ((fetchUserByUserId initialCaches 0 (.str "u1")
        (.response (some "application/json")
          (some (.obj [("user", .num 7)])))).result = some (.obj []))
    ∧ (some (JsValue.obj []) ≠ some JsValue.nullV) := by
  decide


/-- C3 (counterexample): a plain network failure (`fetch` rejects) during
`fetchUserIdByEmail` for a valid email makes the operation itself reject —
`fetchUserByEmail` swallows the error and resolves to `null`, and
`fetchUserIdByEmail` then reads `.userId` off that `null`, raising a
TypeError. An ordinary remote-call failure thus escapes as an exception. -/
theorem C3_counterexample_throws_on_failure :
    (fetchUserIdByEmail emDemo initialCaches 0 (.str "a@b.com") .throws).result
      = none := by
  decide

/-- C3 (amended): `fetchUserByEmail` and `fetchUserByUserId` never reject —
every remote failure resolves to an absence sentinel; but `fetchUserIdByEmail`
rejects with a TypeError exactly when the inner `fetchUserByEmail` resolved to
`null` or `undefined` (invalid email, thrown network error, or a cached
`undefined`), because it dereferences `.userId` on that value. -/
theorem C3_amended_no_throw_except_fetchUserIdByEmail (em : String → Bool)
    (st : Caches) (now : Nat) (key : JsValue) (remote : RemoteResult) :
    ((fetchUserByEmail em st now key remote).result ≠ none)
    ∧ ((fetchUserByUserId st now key remote).result ≠ none)
    ∧ ((fetchUserIdByEmail em st now key remote).result = none ↔
        ((fetchUserByEmail em st now key remote).result = some .nullV
          ∨ (fetchUserByEmail em st now key remote).result = some .undefV)) := by
  refine ⟨fetchUserByEmail_result_ne_none em st now key remote,
    fetchUserByUserId_result_ne_none st now key remote, ?_⟩
  unfold fetchUserIdByEmail
  cases hr : fetchUserByEmail em st now key remote with
  | mk r cs nc =>
    cases r with
    | none =>
      have := fetchUserByEmail_result_ne_none em st now key remote
      rw [hr] at this
      exact absurd rfl this
    | some u =>
      cases hg : getFieldOpt u "userId" with
      | none =>
        have hu := (getFieldOpt_eq_none_iff u "userId").mp hg
        simp only [hg]
        rcases hu with rfl | rfl <;> simp
      | some uid =>
        have hu : ¬(u = .nullV ∨ u = .undefV) := by
          intro hc
          have h5 := (getFieldOpt_eq_none_iff u "userId").mpr hc
          rw [hg] at h5
          exact Option.noConfusion h5
        simp only [hg]
        simpa using hu


/-- C4: an invalid key — an ill-formed email for `fetchUserByEmail`, or a
non-string / empty-string userId for `fetchUserByUserId` — makes the lookup
return the `null` absence sentinel immediately: the caches are untouched and
no network call is made. -/
theorem C4_invalid_key_fail_fast (em : String → Bool) (st : Caches) (now : Nat)
    (key : JsValue) (remote : RemoteResult) :
    (badEmail em key = true →
      fetchUserByEmail em st now key remote = ⟨some .nullV, st, false⟩)
    ∧ (badString key = true →
      fetchUserByUserId st now key remote = ⟨some .nullV, st, false⟩) := by
  constructor
  · intro h
    simp [fetchUserByEmail, h]
  · intro h
    simp [fetchUserByUserId, h]

/-- Witness for C4 at concrete inputs: the number `3` is neither a good email
nor a good string, so both lookups fail fast on it. -/
theorem C4_invalid_key_fail_fast_witness :
    (fetchUserByEmail emDemo initialCaches 0 (.num 3) .throws
      = ⟨some .nullV, initialCaches, false⟩)
    ∧ (fetchUserByUserId initialCaches 0 (.num 3) .throws
      = ⟨some .nullV, initialCaches, false⟩) := by
  have h := C4_invalid_key_fail_fast emDemo initialCaches 0 (.num 3) .throws
  exact ⟨h.1 (by decide), h.2 (by decide)⟩

/-- C8: `set(K, V)` twice in succession leaves the entry count exactly what a
single `set` produces, and an immediate `get(K)` returns `V`. -/
theorem C8_set_idempotent (c : LRU JsValue) (k : String) (v : JsValue)
    (t1 t2 : Nat) :
    (((c.set k v t1).set k v t2).entries.length = (c.set k v t1).entries.length)
    ∧ ((((c.set k v t1).set k v t2).get t2 k).1 = some v) := by
  obtain ⟨rest, hre, hfree⟩ := LRU.set_entries_eq c k v t1
  have hfind : (c.set k v t1).findEntry k = some (k, v, t1) := by
    simp [LRU.findEntry, hre, List.find?_cons]
  have hfil : (c.set k v t1).entries.filter (fun x => !(x.1 == k)) = rest := by
    rw [hre]
    rw [List.filter_cons]
    simp only [BEq.refl, Bool.not_true, Bool.false_eq_true, if_false]
    exact List.filter_eq_self.mpr (fun a ha => by simp [hfree a ha])
  have h2 : ((c.set k v t1).set k v t2).entries = (k, v, t2) :: rest := by
    generalize hd : c.set k v t1 = d at hfind hfil
    simp only [LRU.set, hfind, hfil]
  have hfind2 : ((c.set k v t1).set k v t2).findEntry k = some (k, v, t2) := by
    simp [LRU.findEntry, h2, List.find?_cons]
  constructor
  · rw [h2, hre]
    simp
  · have hstale : ((c.set k v t1).set k v t2).isStale t2 t2 = false := by
      simp [LRU.isStale]
    simp [LRU.get, hfind2, hstale]

/-- C9: the two key spaces are fully independent: every email-path operation
leaves the userId cache untouched and vice versa; concretely, caching
"a@b.com" through a successful email lookup makes it visible in the email key
space only — the userId key space still reports it absent. -/
theorem C9_key_space_isolation (em : String → Bool) (st : Caches) (now : Nat)
    (key : JsValue) (remote : RemoteResult) :
    ((fetchUserByEmail em st now key remote).caches.userByUserId
      = st.userByUserId)
    ∧ ((fetchUserByUserId st now key remote).caches.userByEmail
      = st.userByEmail)
    ∧ ((fetchUserIdByEmail em st now key remote).caches.userByUserId
      = st.userByUserId)
    ∧ ((fetchUserByEmail emDemo initialCaches 0 (.str "a@b.com")
        (.response (some "application/json")
          (some (.obj [("user", demoUser)])))).caches.userByEmail.has
            0 "a@b.com" = true)
    ∧ ((fetchUserByEmail emDemo initialCaches 0 (.str "a@b.com")
        (.response (some "application/json")
          (some (.obj [("user", demoUser)])))).caches.userByUserId.has
            0 "a@b.com" = false)
    ∧ ((fetchUserByUserId demoCaches 0 (.str "a@b.com") .throws).result
      = some .nullV) := by
  refine ⟨fetchUserByEmail_preserves_userId_cache em st now key remote,
    fetchUserByUserId_preserves_email_cache st now key remote, ?_,
    by decide, by decide, by decide⟩
  rw [fetchUserIdByEmail_caches_eq em st now key remote]
  exact fetchUserByEmail_preserves_userId_cache em st now key remote


/-- C5: capacity. (1) Starting from either constructed cache (max 1000), any
sequence of `set` calls leaves at most 1000 entries. (2) Inserting a fresh
key into a cache exactly at capacity evicts precisely the least-recently-used
entry and nothing else: the new entry list is the new entry followed by all
old entries except the last (LRU) one. -/
theorem C5_capacity_invariant :
    (∀ ops : List (String × JsValue × Nat),
      (initialCaches.userByEmail.setMany ops).entries.length ≤ 1000)
    ∧ (∀ (c : LRU JsValue) (k : String) (v : JsValue) (now : Nat),
        c.entries.length = c.max → 0 < c.max → c.findEntry k = none →
        (c.set k v now).entries = (k, v, now) :: c.entries.dropLast) := by
  constructor
  · intro ops
    have hmax : initialCaches.userByEmail.max = 1000 := by decide
    have h := LRU.setMany_length_le ops initialCaches.userByEmail
      (by rw [hmax]; exact Nat.succ_pos _) (by rw [hmax]; decide)
    rwa [hmax] at h
  · intro c k v now hlen hm hf
    simp only [LRU.set, hf]
    rw [if_pos ⟨hm, Nat.le_of_eq hlen.symm⟩]

/-- Witness for C5 at concrete inputs: three sets into the email cache stay
within capacity, and inserting "c" into the full two-slot `fullCache2`
(entries `b`, then `a` as LRU) evicts exactly `a`. -/
theorem C5_capacity_invariant_witness :
    ((initialCaches.userByEmail.setMany
        [("k1", .num 1, 0), ("k2", .num 2, 1), ("k1", .num 3, 2)]).entries.length
      ≤ 1000)
    ∧ ((fullCache2.set "c" (.num 3) 5).entries
      = ("c", .num 3, 5) :: fullCache2.entries.dropLast) := by
  exact ⟨C5_capacity_invariant.1 _,
    C5_capacity_invariant.2 fullCache2 "c" (.num 3) 5 (by decide) (by decide)
      (by decide)⟩

/-- C7: when the key is valid and `has` is true at the start of the lookup,
the lookup returns exactly `get(key)` with no network call; the opposite key
space is untouched and no entry of the consulted cache is added, removed or
modified (`findEntry` is preserved for every key — only recency order moved). -/
theorem C7_cache_hit_no_network (em : String → Bool) (st : Caches) (now : Nat)
    (key : JsValue) (remote : RemoteResult) :
    (badEmail em key = false → st.userByEmail.has now (jsKey key) = true →
      ((fetchUserByEmail em st now key remote).networkCalled = false
        ∧ (fetchUserByEmail em st now key remote).result
          = some ((st.userByEmail.get now (jsKey key)).1.getD .undefV)
        ∧ (fetchUserByEmail em st now key remote).caches.userByUserId
          = st.userByUserId
        ∧ ∀ k2, (fetchUserByEmail em st now key remote).caches.userByEmail.findEntry k2
            = st.userByEmail.findEntry k2))
    ∧ (badString key = false → st.userByUserId.has now (jsKey key) = true →
      ((fetchUserByUserId st now key remote).networkCalled = false
        ∧ (fetchUserByUserId st now key remote).result
          = some ((st.userByUserId.get now (jsKey key)).1.getD .undefV)
        ∧ (fetchUserByUserId st now key remote).caches.userByEmail
          = st.userByEmail
        ∧ ∀ k2, (fetchUserByUserId st now key remote).caches.userByUserId.findEntry k2
            = st.userByUserId.findEntry k2)) := by
  constructor
  · intro hv hh
    simp only [fetchUserByEmail, hv, Bool.false_eq_true, if_false, hh, if_true]
    refine ⟨trivial, trivial, trivial, ?_⟩
    intro k2
    exact LRU.get_findEntry_of_has st.userByEmail now (jsKey key) hh k2
  · intro hv hh
    simp only [fetchUserByUserId, hv, Bool.false_eq_true, if_false, hh, if_true]
    refine ⟨trivial, trivial, trivial, ?_⟩
    intro k2
    exact LRU.get_findEntry_of_has st.userByUserId now (jsKey key) hh k2

/-- Witness for C7 at concrete inputs: with "a@b.com" pre-cached in
`demoCaches`, the email lookup is a hit — no network call even though the
remote would throw. -/
theorem C7_cache_hit_no_network_witness :
    ((fetchUserByEmail emDemo demoCaches 0 (.str "a@b.com") .throws).networkCalled
      = false)
    ∧ ((fetchUserByEmail emDemo demoCaches 0 (.str "a@b.com") .throws).result
      = some ((demoCaches.userByEmail.get 0 (jsKey (.str "a@b.com"))).1.getD .undefV)) := by
  have h := (C7_cache_hit_no_network emDemo demoCaches 0 (.str "a@b.com") .throws).1
    (by decide) (by decide)
  exact ⟨h.1, h.2.1⟩


/-- C2 (amended): for BOTH lookups, on a cache miss, a thrown fetch, a
non-JSON content-type, an unparseable body, a JSON body on which reading
`.user` throws, and a `user` field that is not of JS type "object" all leave
the caches exactly as they were, and a lookup with a valid key always
attempts the remote fetch again from that unchanged state. But whenever the
body parses and `typeof json.user === "object"` — which includes `null` and
the empty object — the merged (possibly empty) placeholder IS written to the
consulted cache, and a subsequent lookup for the same key short-circuits from
cache with no network call. -/
theorem C2_amended_no_cache_write_on_failure (em : String → Bool) (st : Caches)
    (now : Nat) (key : JsValue)
    (hmissE : st.userByEmail.has now (jsKey key) = false)
    (hmissU : st.userByUserId.has now (jsKey key) = false) :
    ((fetchUserByEmail em st now key .throws).caches = st)
    ∧ (∀ ct body, ct ≠ some "application/json" →
        (fetchUserByEmail em st now key (.response ct body)).caches = st)
    ∧ ((fetchUserByEmail em st now key
        (.response (some "application/json") none)).caches = st)
    ∧ (∀ json, getFieldOpt json "user" = none →
        (fetchUserByEmail em st now key
          (.response (some "application/json") (some json))).caches = st)
    ∧ (∀ json u, getFieldOpt json "user" = some u → typeofJs u ≠ "object" →
        (fetchUserByEmail em st now key
          (.response (some "application/json") (some json))).caches = st)
    ∧ (badEmail em key = false → ∀ remote,
        (fetchUserByEmail em st now key remote).networkCalled = true)
    ∧ (badEmail em key = false →
        ∀ json u, getFieldOpt json "user" = some u → typeofJs u = "object" →
        (fetchUserByEmail em st now key
          (.response (some "application/json") (some json))).caches.userByEmail
            = st.userByEmail.set (jsKey key) (mergedEmpty u) now)
    ∧ (badEmail em key = false →
        ∀ json u, getFieldOpt json "user" = some u → typeofJs u = "object" →
        ∀ remote2, (fetchUserByEmail em
          (fetchUserByEmail em st now key
            (.response (some "application/json") (some json))).caches
          now key remote2).networkCalled = false)
    ∧ ((fetchUserByUserId st now key .throws).caches = st)
    ∧ (∀ ct body, ct ≠ some "application/json" →
        (fetchUserByUserId st now key (.response ct body)).caches = st)
    ∧ ((fetchUserByUserId st now key
        (.response (some "application/json") none)).caches = st)
    ∧ (∀ json, getFieldOpt json "user" = none →
        (fetchUserByUserId st now key
          (.response (some "application/json") (some json))).caches = st)
    ∧ (∀ json u, getFieldOpt json "user" = some u → typeofJs u ≠ "object" →
        (fetchUserByUserId st now key
          (.response (some "application/json") (some json))).caches = st)
    ∧ (badString key = false → ∀ remote,
        (fetchUserByUserId st now key remote).networkCalled = true)
    ∧ (badString key = false →
        ∀ json u, getFieldOpt json "user" = some u → typeofJs u = "object" →
        (fetchUserByUserId st now key
          (.response (some "application/json") (some json))).caches.userByUserId
            = st.userByUserId.set (jsKey key) (mergedEmpty u) now)
    ∧ (badString key = false →
        ∀ json u, getFieldOpt json "user" = some u → typeofJs u = "object" →
        ∀ remote2, (fetchUserByUserId
          (fetchUserByUserId st now key
            (.response (some "application/json") (some json))).caches
          now key remote2).networkCalled = false) := by
  refine ⟨?_, ?_, ?_, ?_, ?_, ?_, ?_, ?_, ?_, ?_, ?_, ?_, ?_, ?_, ?_, ?_⟩
  · by_cases hb : badEmail em key = true <;>
      simp [fetchUserByEmail, hb, hmissE]
  · intro ct body hct
    by_cases hb : badEmail em key = true <;>
      simp [fetchUserByEmail, hb, hmissE, hct]
  · by_cases hb : badEmail em key = true <;>
      simp [fetchUserByEmail, hb, hmissE]
  · intro json hj
    by_cases hb : badEmail em key = true <;>
      simp [fetchUserByEmail, hb, hmissE, hj]
  · intro json u hj ht
    by_cases hb : badEmail em key = true <;>
      simp [fetchUserByEmail, hb, hmissE, hj, ht]
  · intro hb remote2
    cases remote2 with
    | throws => simp [fetchUserByEmail, hb, hmissE]
    | response ct body =>
      simp only [fetchUserByEmail, hb, Bool.false_eq_true, if_false, hmissE]
      repeat' split
      all_goals rfl
  · intro hb json u hj ht
    simp [fetchUserByEmail, hb, hmissE, hj, ht]
  · intro hb json u hj ht remote2
    have hw : (fetchUserByEmail em st now key
        (.response (some "application/json") (some json))).caches
        = { st with userByEmail :=
            st.userByEmail.set (jsKey key) (mergedEmpty u) now } := by
      simp [fetchUserByEmail, hb, hmissE, hj, ht]
    rw [hw]
    have hhas : (st.userByEmail.set (jsKey key)
        (mergedEmpty u) now).has now (jsKey key) = true :=
      LRU.has_set_self st.userByEmail (jsKey key) (mergedEmpty u) now
    simp [fetchUserByEmail, hb, hhas]
  · by_cases hb : badString key = true <;>
      simp [fetchUserByUserId, hb, hmissU]
  · intro ct body hct
    by_cases hb : badString key = true <;>
      simp [fetchUserByUserId, hb, hmissU, hct]
  · by_cases hb : badString key = true <;>
      simp [fetchUserByUserId, hb, hmissU]
  · intro json hj
    by_cases hb : badString key = true <;>
      simp [fetchUserByUserId, hb, hmissU, hj]
  · intro json u hj ht
    by_cases hb : badString key = true <;>
      simp [fetchUserByUserId, hb, hmissU, hj, ht]
  · intro hb remote2
    cases remote2 with
    | throws => simp [fetchUserByUserId, hb, hmissU]
    | response ct body =>
      simp only [fetchUserByUserId, hb, Bool.false_eq_true, if_false, hmissU]
      repeat' split
      all_goals rfl
  · intro hb json u hj ht
    simp [fetchUserByUserId, hb, hmissU, hj, ht]
  · intro hb json u hj ht remote2
    have hw : (fetchUserByUserId st now key
        (.response (some "application/json") (some json))).caches
        = { st with userByUserId :=
            st.userByUserId.set (jsKey key) (mergedEmpty u) now } := by
      simp [fetchUserByUserId, hb, hmissU, hj, ht]
    rw [hw]
    have hhas : (st.userByUserId.set (jsKey key)
        (mergedEmpty u) now).has now (jsKey key) = true :=
      LRU.has_set_self st.userByUserId (jsKey key) (mergedEmpty u) now
    simp [fetchUserByUserId, hb, hhas]

/-- Witness for C2 at concrete inputs: from the fresh caches (a miss for both
keys), a thrown fetch and a non-JSON response leave the email path unwritten;
an unparseable body, a null JSON body and a non-object `user` field leave the
userId path unwritten; a lookup with a valid key attempts the network; a JSON
response with `user: null` writes the empty placeholder into the email cache;
and after an empty record is written, the next lookup for the same key (on
either path) makes no network call. -/
theorem C2_amended_no_cache_write_on_failure_witness :
    ((fetchUserByEmail emDemo initialCaches 0 (.str "a@b.com") .throws).caches
      = initialCaches)
    ∧ ((fetchUserByEmail emDemo initialCaches 0 (.str "a@b.com")
        (.response (some "text/html") none)).caches = initialCaches)
    ∧ ((fetchUserByUserId initialCaches 0 (.str "u1")
        (.response (some "application/json") none)).caches = initialCaches)
    ∧ ((fetchUserByUserId initialCaches 0 (.str "u1")
        (.response (some "application/json") (some .nullV))).caches
      = initialCaches)
    ∧ ((fetchUserByUserId initialCaches 0 (.str "u1")
        (.response (some "application/json")
          (some (.obj [("user", .str "x")])))).caches = initialCaches)
    ∧ ((fetchUserByEmail emDemo initialCaches 0 (.str "a@b.com") .throws).networkCalled
      = true)
    ∧ ((fetchUserByEmail emDemo initialCaches 0 (.str "a@b.com")
        (.response (some "application/json")
          (some (.obj [("user", .nullV)])))).caches.userByEmail
      = initialCaches.userByEmail.set (jsKey (.str "a@b.com"))
          (mergedEmpty .nullV) 0)
    ∧ ((fetchUserByEmail emDemo
        (fetchUserByEmail emDemo initialCaches 0 (.str "a@b.com")
          (.response (some "application/json")
            (some (.obj [("user", .obj [])])))).caches
        0 (.str "a@b.com") .throws).networkCalled = false)
    ∧ ((fetchUserByUserId
        (fetchUserByUserId initialCaches 0 (.str "u1")
          (.response (some "application/json")
            (some (.obj [("user", .obj [])])))).caches
        0 (.str "u1") .throws).networkCalled = false) := by
  have hE := C2_amended_no_cache_write_on_failure emDemo initialCaches 0
    (.str "a@b.com") (by decide) (by decide)
  have hU := C2_amended_no_cache_write_on_failure emDemo initialCaches 0
    (.str "u1") (by decide) (by decide)
  obtain ⟨e1, e2, -, -, -, e6, e7, e8, -, -, -, -, -, -, -, -⟩ := hE
  obtain ⟨-, -, -, -, -, -, -, -, -, -, u3, u4, u5, -, -, u8⟩ := hU
  exact ⟨e1, e2 (some "text/html") none (by decide),
    u3, u4 .nullV (by decide),
    u5 (.obj [("user", .str "x")]) (.str "x") (by decide) (by decide),
    e6 (by decide) .throws,
    e7 (by decide) (.obj [("user", .nullV)]) .nullV (by decide) (by decide),
    e8 (by decide) (.obj [("user", .obj [])]) (.obj []) (by decide) (by decide)
      .throws,
    u8 (by decide) (.obj [("user", .obj [])]) (.obj []) (by decide) (by decide)
      .throws⟩

end IterableAPI
